import Mathlib

/-!
Shallow embedding of the `dns-cookie` crate (`src/lib.rs`): Server and Client
DNS Cookies per draft-sury-toorop-dns-cookies-algorithms-00.

Modelling conventions:
* Machine integers (`u8`, `u16`, `u32`, `u64`) are `Nat` with explicit
  `% 2^w` where the code can overflow; `i64` unix timestamps are `Int`.
* `time::OffsetDateTime` is modelled as its unix timestamp in whole seconds
  (an `Int`).  Every use in the source (`to_offset(UtcOffset::UTC)`,
  `unix_timestamp`, `PartialEq`/`PartialOrd`, duration arithmetic) depends
  only on the instant, which is unchanged by `to_offset`; sub-second
  components are dropped, matching the spec's second-granularity data model.
* `SipHasher24` (siphasher crate) is modelled as the byte stream written so
  far; `finish` runs the SipHash-2-4 permutation (checked below against the
  reference-implementation test vectors) over that stream with the zero key,
  exactly the semantics of `SipHasher24::new()` followed by `write`/`finish`.
  The integer methods `write_u8`/`write_u16`/`write_u32` are the
  `core::hash::Hasher` provided methods, which feed the value's
  native-endian bytes (`to_ne_bytes`); the reference platforms of this crate
  are little-endian, so they feed little-endian bytes.
-/

deriving instance DecidableEq for Except

namespace DnsCookie

/-- Wrap-around modulus of 64-bit arithmetic, `2 ^ 64`. -/
def M64 : Nat := 18446744073709551616

/-- Left rotation of a 64-bit value (values are kept below `M64`). -/
def rotl (x n : Nat) : Nat := ((x <<< n) % M64) ||| (x >>> (64 - n))

/-- One round of the SipHash permutation (reference algorithm). -/
structure SipState where
  v0 : Nat
  v1 : Nat
  v2 : Nat
  v3 : Nat

def sipRound (s : SipState) : SipState :=
  let v0 := (s.v0 + s.v1) % M64
  let v1 := rotl s.v1 13
  let v1 := v1 ^^^ v0
  let v0 := rotl v0 32
  let v2 := (s.v2 + s.v3) % M64
  let v3 := rotl s.v3 16
  let v3 := v3 ^^^ v2
  let v0 := (v0 + v3) % M64
  let v3 := rotl v3 21
  let v3 := v3 ^^^ v0
  let v2 := (v2 + v1) % M64
  let v1 := rotl v1 17
  let v1 := v1 ^^^ v2
  let v2 := rotl v2 32
  ⟨v0, v1, v2, v3⟩

/-- Absorb one 64-bit message word (SipHash-2-4: two rounds per word). -/
def sipCompress (s : SipState) (m : Nat) : SipState :=
  let s := { s with v3 := s.v3 ^^^ m }
  let s := sipRound (sipRound s)
  { s with v0 := s.v0 ^^^ m }

/-- A full 8-byte message block as a little-endian 64-bit word. -/
def leWord8 (b0 b1 b2 b3 b4 b5 b6 b7 : Nat) : Nat :=
  b0 % 256 + 256 * (b1 % 256) + 65536 * (b2 % 256) + 16777216 * (b3 % 256) +
    4294967296 * (b4 % 256) + 1099511627776 * (b5 % 256) +
    281474976710656 * (b6 % 256) + 72057594037927936 * (b7 % 256)

/-- The trailing (fewer than 8) message bytes as a little-endian word. -/
def leWordTail (l : List Nat) : Nat :=
  l.foldr (fun b acc => b % 256 + 256 * acc) 0

/-- Split a message into its full 8-byte words (little-endian) and the
remaining tail of fewer than 8 bytes. -/
def chunkWords : List Nat → List Nat × List Nat
  | b0 :: b1 :: b2 :: b3 :: b4 :: b5 :: b6 :: b7 :: rest =>
    let p := chunkWords rest
    (leWord8 b0 b1 b2 b3 b4 b5 b6 b7 :: p.1, p.2)
  | rest => ([], rest)

/-- SipHash initial state for key `(k0, k1)`. -/
def sipInit (k0 k1 : Nat) : SipState :=
  ⟨k0 ^^^ 0x736f6d6570736575, k1 ^^^ 0x646f72616e646f6d,
   k0 ^^^ 0x6c7967656e657261, k1 ^^^ 0x7465646279746573⟩

/-- SipHash-2-4 finalization: absorb the final block (tail bytes plus the
message length in the top byte), then four finishing rounds. -/
def sipFinish (s : SipState) (len : Nat) (tail : List Nat) : Nat :=
  let b := (len % 256) * 72057594037927936 + leWordTail tail
  let s := sipCompress s b
  let s := { s with v2 := s.v2 ^^^ 255 }
  let s := sipRound (sipRound (sipRound (sipRound s)))
  (s.v0 ^^^ s.v1 ^^^ s.v2 ^^^ s.v3) % M64

/-- SipHash-2-4 of a byte message under key `(k0, k1)`. -/
def sipHash24Keyed (k0 k1 : Nat) (msg : List Nat) : Nat :=
  sipFinish ((chunkWords msg).1.foldl sipCompress (sipInit k0 k1)) msg.length
    (chunkWords msg).2

/-- SipHash-2-4 with the all-zero key: the hash computed by
`SipHasher24::new()` in the source. -/
def sipHash24 (msg : List Nat) : Nat := sipHash24Keyed 0 0 msg

/-- Model of a `siphasher::sip::SipHasher24` value created by
`SipHasher24::new()`: the byte stream written so far. -/
structure SipHasher where
  acc : List Nat

/-- `SipHasher24::new()`. -/
def SipHasher.mk0 : SipHasher := ⟨[]⟩

/-- `Hasher::write(msg)`: append the bytes to the stream. -/
def SipHasher.write (h : SipHasher) (bytes : List Nat) : SipHasher :=
  ⟨h.acc ++ bytes⟩

/-- Native-endian bytes of a `u8` (`Hasher::write_u8`). -/
def leBytes1 (i : Nat) : List Nat := [i % 256]

/-- Native-endian bytes of a `u16` on a little-endian platform
(`u16::to_ne_bytes`). -/
def leBytes2 (i : Nat) : List Nat := [i % 256, (i >>> 8) % 256]

/-- Native-endian bytes of a `u32` on a little-endian platform
(`u32::to_ne_bytes`). -/
def leBytes4 (i : Nat) : List Nat :=
  [i % 256, (i >>> 8) % 256, (i >>> 16) % 256, (i >>> 24) % 256]

/-- `Hasher::write_u8(i)`, the provided method `write(&i.to_ne_bytes())`. -/
def SipHasher.writeU8 (h : SipHasher) (i : Nat) : SipHasher :=
  h.write (leBytes1 i)

/-- `Hasher::write_u16(i)`, the provided method `write(&i.to_ne_bytes())`. -/
def SipHasher.writeU16 (h : SipHasher) (i : Nat) : SipHasher :=
  h.write (leBytes2 i)

/-- `Hasher::write_u32(i)`, the provided method `write(&i.to_ne_bytes())`. -/
def SipHasher.writeU32 (h : SipHasher) (i : Nat) : SipHasher :=
  h.write (leBytes4 i)

/-- `Hasher::finish()`: SipHash-2-4 of the stream under the zero key. -/
def SipHasher.finish (h : SipHasher) : Nat := sipHash24 h.acc

/-- `u16::from_be_bytes` / `u32::from_be_bytes` / `u64::from_be_bytes`:
big-endian byte list to integer. -/
def beNat (l : List Nat) : Nat := l.foldl (fun acc b => acc * 256 + b) 0

/-- `time.unix_timestamp() as u32`: two's-complement truncation of the
`i64` timestamp to 32 bits, i.e. the value modulo `2 ^ 32`. -/
def tsU32 (t : Int) : Nat := (t % 4294967296).toNat

/-- Smallest unix timestamp representable by `time::OffsetDateTime` with the
crate's default features (year -9999). Modelled dependency behavior of the
`time` crate. -/
def minUnixTimestamp : Int := -377705116800

/-- Largest unix timestamp representable by `time::OffsetDateTime` with the
crate's default features (year 9999). Modelled dependency behavior of the
`time` crate. -/
def maxUnixTimestamp : Int := 253402300799

/-- `OffsetDateTime::from_unix_timestamp`: succeeds exactly when the value is
a representable calendar time (`none` models `Err(ComponentRange)`). -/
def fromUnixTimestamp (ts : Int) : Option Int :=
  if minUnixTimestamp ≤ ts ∧ ts ≤ maxUnixTimestamp then some ts else none

/-- `enum Version { One = 1 }`. -/
inductive Version where
  | One
deriving DecidableEq

/-- `Version::One as u8`. -/
def Version.asU8 : Version → Nat
  | .One => 1

/-- `enum Algorithm { SipHash24 = 4 }`. -/
inductive Algorithm where
  | SipHash24
deriving DecidableEq

/-- `Algorithm::SipHash24 as u8`. -/
def Algorithm.asU8 : Algorithm → Nat
  | .SipHash24 => 4

/-- `enum Error` from the source.  `TimestampRange` carries a
`time::error::ComponentRange` payload in the source; the payload is never
inspected by this crate, so it is dropped here. -/
inductive Error where
  | IncorrectLength (len : Nat)
  | TimestampRange
  | InvalidHash
  | Expired
  | TimeTravellor
  | UnknownVersion (b : Nat)
  | UnknownAlgorithm (b : Nat)
  | UnsupportedAlgorithm (name : String)
deriving DecidableEq

/-- `impl TryFrom<u8> for Version`. -/
def Version.tryFrom (version : Nat) : Except Error Version :=
  if version = Version.asU8 .One then .ok .One
  else .error (.UnknownVersion version)

/-- `impl TryFrom<u8> for Algorithm` (match arms in source order). -/
def Algorithm.tryFrom (algorithm : Nat) : Except Error Algorithm :=
  if algorithm = Algorithm.asU8 .SipHash24 then .ok .SipHash24
  else if algorithm = 1 then .error (.UnsupportedAlgorithm "FNV")
  else if algorithm = 2 then .error (.UnsupportedAlgorithm "HMAC-SHA-256-64")
  else if algorithm = 3 then .error (.UnsupportedAlgorithm "AES")
  else .error (.UnknownAlgorithm algorithm)

/-- `struct Data`: the cookie record. `reserved` is a `u16`, `time` the
unix timestamp (UTC instant) of the stored `OffsetDateTime`, `clientCookie`
the 8-byte client cookie. -/
structure Data where
  version : Version
  algorithm : Algorithm
  reserved : Nat
  time : Int
  clientCookie : List Nat
deriving DecidableEq

/-- `Data::hash`: the keyed tag.  Mirrors the source's `SipHasher24` calls:
`write(client_cookie)`, `write_u8(version)`, `write_u8(algorithm)`,
`write_u16(reserved)`, `write_u32(timestamp as u32)`, `write(secret)`,
`finish()`. -/
def Data.hash (d : Data) (serverSecret : List Nat) : Nat :=
  match d.version with
  | .One =>
    match d.algorithm with
    | .SipHash24 =>
      let h := SipHasher.mk0
      let h := h.write d.clientCookie
      let h := h.writeU8 d.version.asU8
      let h := h.writeU8 d.algorithm.asU8
      let h := h.writeU16 d.reserved
      let h := h.writeU32 (tsU32 d.time)
      let h := h.write serverSecret
      h.finish

/-- `struct Server`: cookie record plus 64-bit tag. -/
structure Server where
  data : Data
  hash : Nat
deriving DecidableEq

/-- `Server::new`.  `time.to_offset(UtcOffset::UTC)` keeps the instant, which
is what the model stores. -/
def Server.new (version : Version) (algorithm : Algorithm) (reserved : Nat)
    (time : Int) (clientCookie : List Nat) (serverSecret : List Nat) : Server :=
  let data : Data := ⟨version, algorithm, reserved, time, clientCookie⟩
  ⟨data, data.hash serverSecret⟩

/-- `Server::regenerate`: keep the cookie if its timestamp is strictly newer
than `time - 30.minutes()`, else restamp with `time` and recompute the tag. -/
def Server.regenerate (s : Server) (time : Int) (serverSecret : List Nat) :
    Server :=
  if time - 1800 < s.data.time then s
  else
    let data := { s.data with time := time }
    ⟨data, data.hash serverSecret⟩

/-- `Server::encode`: the source's explicit 16-byte array
`[version, algorithm, reserved.to_be_bytes(), (timestamp as u32).to_be_bytes(),
hash.to_be_bytes()]`. -/
def Server.encode (s : Server) : List Nat :=
  [ s.data.version.asU8,
    s.data.algorithm.asU8,
    (s.data.reserved >>> 8) % 256,
    s.data.reserved % 256,
    (tsU32 s.data.time >>> 24) % 256,
    (tsU32 s.data.time >>> 16) % 256,
    (tsU32 s.data.time >>> 8) % 256,
    tsU32 s.data.time % 256,
    (s.hash >>> 56) % 256,
    (s.hash >>> 48) % 256,
    (s.hash >>> 40) % 256,
    (s.hash >>> 32) % 256,
    (s.hash >>> 24) % 256,
    (s.hash >>> 16) % 256,
    (s.hash >>> 8) % 256,
    s.hash % 256 ]

/-- The secret loop at the end of `Server::decode`: try each candidate in
order, return the first reconstruction whose tag matches the wire tag. -/
def Server.decodeLoop (version : Version) (algorithm : Algorithm)
    (reserved : Nat) (time : Int) (clientCookie : List Nat) (hash : Nat) :
    List (List Nat) → Except Error Server
  | [] => .error .InvalidHash
  | secret :: rest =>
    let cookie := Server.new version algorithm reserved time clientCookie secret
    if cookie.hash = hash then .ok cookie
    else Server.decodeLoop version algorithm reserved time clientCookie hash rest

/-- `Server::decode`.  `now.to_offset(UtcOffset::UTC)` keeps the instant;
`1.hours()` is 3600 seconds and `5.minutes()` 300 seconds.  The source indexes
`server_cookie[0]..server_cookie[15]` after the length guard; here the same
sixteen bytes are bound by a pattern match (the fallback arm is unreachable
for inputs that pass the guard). -/
def Server.decode (now : Int) (clientCookie : List Nat)
    (serverCookie : List Nat) (serverSecrets : List (List Nat)) :
    Except Error Server :=
  let cookieLen := serverCookie.length
  if cookieLen ≠ 16 then .error (.IncorrectLength cookieLen)
  else
    match serverCookie with
    | b0 :: b1 :: b2 :: b3 :: b4 :: b5 :: b6 :: b7 ::
        b8 :: b9 :: b10 :: b11 :: b12 :: b13 :: b14 :: b15 :: _ =>
      match Version.tryFrom b0 with
      | .error e => .error e
      | .ok version =>
        match Algorithm.tryFrom b1 with
        | .error e => .error e
        | .ok algorithm =>
          let reserved := beNat [b2, b3]
          let timestamp := beNat [b4, b5, b6, b7]
          match fromUnixTimestamp (Int.ofNat timestamp) with
          | none => .error .TimestampRange
          | some time =>
            if time < now - 3600 then .error .Expired
            else if time > now + 300 then .error .TimeTravellor
            else
              let hash := beNat [b8, b9, b10, b11, b12, b13, b14, b15]
              Server.decodeLoop version algorithm reserved time clientCookie
                hash serverSecrets
    | _ => .error (.IncorrectLength cookieLen)

/-- `std::net::IpAddr`, reduced to the octet lists actually fed to the
hasher (`Ipv4Addr::octets` is 4 bytes, `Ipv6Addr::octets` 16 bytes, both in
network order). -/
inductive IpAddr where
  | v4 (octets : List Nat)
  | v6 (octets : List Nat)
deriving DecidableEq

/-- The octets written by the `match client_ip { V4(ip) => ..., V6(ip) => ... }`
arms of `Client::new`. -/
def IpAddr.octets : IpAddr → List Nat
  | .v4 o => o
  | .v6 o => o

/-- `struct Client`: just the 64-bit tag. -/
structure Client where
  hash : Nat
deriving DecidableEq

/-- `Client::new`: SipHash-2-4 over client IP octets, server IP octets, then
the secret. -/
def Client.new (version : Version) (algorithm : Algorithm)
    (clientIp serverIp : IpAddr) (clientSecret : List Nat) : Client :=
  match version with
  | .One =>
    match algorithm with
    | .SipHash24 =>
      let h := SipHasher.mk0
      let h := h.write clientIp.octets
      let h := h.write serverIp.octets
      let h := h.write clientSecret
      ⟨h.finish⟩

/-- The secret loop of `Client::decode`. -/
def Client.decodeLoop (version : Version) (algorithm : Algorithm)
    (clientIp serverIp : IpAddr) (hash : Nat) :
    List (List Nat) → Except Error Client
  | [] => .error .InvalidHash
  | secret :: rest =>
    let cookie := Client.new version algorithm clientIp serverIp secret
    if cookie.hash = hash then .ok cookie
    else Client.decodeLoop version algorithm clientIp serverIp hash rest

/-- `Client::decode`: parse the 8-byte big-endian tag, then try each secret
in order. -/
def Client.decode (version : Version) (algorithm : Algorithm)
    (clientIp serverIp : IpAddr) (clientCookie : List Nat)
    (clientSecrets : List (List Nat)) : Except Error Client :=
  let hash := beNat clientCookie
  Client.decodeLoop version algorithm clientIp serverIp hash clientSecrets

/-- `Client::encode`: `hash.to_be_bytes()`. -/
def Client.encode (c : Client) : List Nat :=
  [ (c.hash >>> 56) % 256,
    (c.hash >>> 48) % 256,
    (c.hash >>> 40) % 256,
    (c.hash >>> 32) % 256,
    (c.hash >>> 24) % 256,
    (c.hash >>> 16) % 256,
    (c.hash >>> 8) % 256,
    c.hash % 256 ]

/-- Modelled from the spec's words for claim C1 (refinement target, not from
the source): the tag as SipHash-2-4 of client cookie, version byte,
algorithm byte, reserved field as big-endian bytes, truncated timestamp as
big-endian bytes, then the secret. -/
def specServerTagBE (d : Data) (secret : List Nat) : Nat :=
  sipHash24 (d.clientCookie ++ [d.version.asU8] ++ [d.algorithm.asU8] ++
    [(d.reserved >>> 8) % 256, d.reserved % 256] ++
    [(tsU32 d.time >>> 24) % 256, (tsU32 d.time >>> 16) % 256,
     (tsU32 d.time >>> 8) % 256, tsU32 d.time % 256] ++ secret)

/-! ### Sanity checks of the SipHash-2-4 model

The reference-implementation test vectors (key `00 01 .. 0f`, messages
`[]`, `[0]`, `[0..7]`, `[0..14]`), covering the empty, partial-block and
exact-block cases. -/

theorem sipHash24_vector_empty :
    sipHash24Keyed 0x0706050403020100 0x0f0e0d0c0b0a0908 [] =
      0x726fdb47dd0e0e31 := by decide

theorem sipHash24_vector_one :
    sipHash24Keyed 0x0706050403020100 0x0f0e0d0c0b0a0908 [0] =
      0x74f839c593dc67fd := by decide

theorem sipHash24_vector_block :
    sipHash24Keyed 0x0706050403020100 0x0f0e0d0c0b0a0908 [0, 1, 2, 3, 4, 5, 6, 7] =
      0x93f5f5799a932462 := by decide

theorem sipHash24_vector_fifteen :
    sipHash24Keyed 0x0706050403020100 0x0f0e0d0c0b0a0908
      [0, 1, 2, 3, 4, 5, 6, 7, 8, 9, 10, 11, 12, 13, 14] =
      0xa129ca6149be45e5 := by decide

/-! ### Helper lemmas -/

theorem sipFinish_lt (s : SipState) (len : Nat) (tail : List Nat) :
    sipFinish s len tail < M64 := by
  unfold sipFinish
  exact Nat.mod_lt _ (by decide)

theorem sipHash24Keyed_lt (k0 k1 : Nat) (msg : List Nat) :
    sipHash24Keyed k0 k1 msg < M64 :=
  sipFinish_lt _ _ _

theorem sipHash24_lt (msg : List Nat) : sipHash24 msg < M64 :=
  sipHash24Keyed_lt 0 0 msg

/-- The byte stream hashed by `Data::hash`, flattened: client cookie, the
version byte, the algorithm byte, the reserved field in native (little-endian)
byte order, the truncated timestamp in native (little-endian) byte order, the
secret. -/
theorem dataHash_stream (d : Data) (secret : List Nat) :
    d.hash secret =
      sipHash24 (d.clientCookie ++ [d.version.asU8] ++ [d.algorithm.asU8] ++
        leBytes2 d.reserved ++ leBytes4 (tsU32 d.time) ++ secret) := by
  obtain ⟨v, a, r, t, cc⟩ := d
  cases v
  cases a
  simp [Data.hash, SipHasher.mk0, SipHasher.write, SipHasher.writeU8,
    SipHasher.writeU16, SipHasher.writeU32, SipHasher.finish, leBytes1,
    Version.asU8, Algorithm.asU8, List.append_assoc]

theorem dataHash_lt (d : Data) (secret : List Nat) : d.hash secret < M64 := by
  rw [dataHash_stream]
  exact sipHash24_lt _

theorem beNat2_recon (r : Nat) (hr : r < 65536) :
    beNat [(r >>> 8) % 256, r % 256] = r := by
  simp only [beNat, List.foldl, Nat.shiftRight_eq_div_pow]
  norm_num
  omega

theorem beNat4_recon (n : Nat) (hn : n < 4294967296) :
    beNat [(n >>> 24) % 256, (n >>> 16) % 256, (n >>> 8) % 256, n % 256] = n := by
  simp only [beNat, List.foldl, Nat.shiftRight_eq_div_pow]
  norm_num
  omega

theorem beNat8_recon (n : Nat) (hn : n < M64) :
    beNat [(n >>> 56) % 256, (n >>> 48) % 256, (n >>> 40) % 256,
      (n >>> 32) % 256, (n >>> 24) % 256, (n >>> 16) % 256, (n >>> 8) % 256,
      n % 256] = n := by
  simp only [beNat, List.foldl, Nat.shiftRight_eq_div_pow, M64] at *
  norm_num at *
  omega

theorem tsU32_lt (t : Int) : tsU32 t < 4294967296 := by
  unfold tsU32
  have h1 : 0 ≤ t % 4294967296 := Int.emod_nonneg t (by decide)
  have h2 : t % 4294967296 < 4294967296 := Int.emod_lt_of_pos t (by decide)
  omega

theorem tsU32_int_eq (t : Int) (h0 : 0 ≤ t) (h1 : t < 4294967296) :
    ((tsU32 t : Nat) : Int) = t := by
  unfold tsU32
  rw [Int.emod_eq_of_lt h0 h1]
  exact Int.toNat_of_nonneg h0

theorem version_tryFrom_asU8 (v : Version) : Version.tryFrom v.asU8 = .ok v := by
  cases v
  rfl

theorem algorithm_tryFrom_asU8 (a : Algorithm) :
    Algorithm.tryFrom a.asU8 = .ok a := by
  cases a
  rfl

theorem decodeLoop_eq_find (v : Version) (a : Algorithm) (r : Nat) (t : Int)
    (cc : List Nat) (H : Nat) (ss : List (List Nat)) :
    Server.decodeLoop v a r t cc H ss =
      match ss.find? (fun sec => (Server.new v a r t cc sec).hash == H) with
      | some sec => .ok (Server.new v a r t cc sec)
      | none => .error .InvalidHash := by
  induction ss with
  | nil => rfl
  | cons sec rest ih =>
    by_cases h : (Server.new v a r t cc sec).hash = H
    · simp [Server.decodeLoop, List.find?, h]
    · have hb : ((Server.new v a r t cc sec).hash == H) = false := by
        simp [h]
      simp [Server.decodeLoop, List.find?, h, hb, ih]

theorem clientLoop_eq_find (v : Version) (a : Algorithm)
    (cip sip : IpAddr) (H : Nat) (ss : List (List Nat)) :
    Client.decodeLoop v a cip sip H ss =
      match ss.find? (fun sec => (Client.new v a cip sip sec).hash == H) with
      | some sec => .ok (Client.new v a cip sip sec)
      | none => .error .InvalidHash := by
  induction ss with
  | nil => rfl
  | cons sec rest ih =>
    by_cases h : (Client.new v a cip sip sec).hash = H
    · simp [Client.decodeLoop, List.find?, h]
    · have hb : ((Client.new v a cip sip sec).hash == H) = false := by
        simp [h]
      simp [Client.decodeLoop, List.find?, h, hb, ih]

/-- Full characterization of `Server::decode` applied to the encoding of a
freshly constructed cookie, for a timestamp representable in the 32-bit wire
field. -/
theorem decode_encode (v : Version) (a : Algorithm) (r : Nat) (t : Int)
    (cc s : List Nat) (ss : List (List Nat)) (now : Int)
    (hr : r < 65536) (ht0 : 0 ≤ t) (ht1 : t < 4294967296) :
    Server.decode now cc ((Server.new v a r t cc s).encode) ss =
      if t < now - 3600 then .error .Expired
      else if t > now + 300 then .error .TimeTravellor
      else
        match ss.find? (fun sec => (Server.new v a r t cc sec).hash ==
            (Server.new v a r t cc s).hash) with
        | some sec => .ok (Server.new v a r t cc sec)
        | none => .error .InvalidHash := by
  have hhash := dataHash_lt (⟨v, a, r, t, cc⟩ : Data) s
  have hfrom : fromUnixTimestamp ((tsU32 t : Nat) : Int) = some t := by
    rw [tsU32_int_eq t ht0 ht1]
    unfold fromUnixTimestamp minUnixTimestamp maxUnixTimestamp
    rw [if_pos (by constructor <;> omega)]
  simp only [Server.encode, Server.new, Server.decode, List.length_cons,
    List.length_nil]
  norm_num [beNat2_recon r hr, beNat4_recon (tsU32 t) (tsU32_lt t),
    beNat8_recon _ hhash, version_tryFrom_asU8, algorithm_tryFrom_asU8,
    hfrom, decodeLoop_eq_find]
  rfl

/-- The byte stream hashed by `Client::new`, flattened: client IP octets,
server IP octets, secret. -/
theorem clientNew_stream (v : Version) (a : Algorithm) (cip sip : IpAddr)
    (s : List Nat) :
    (Client.new v a cip sip s).hash =
      sipHash24 (cip.octets ++ sip.octets ++ s) := by
  cases v
  cases a
  simp [Client.new, SipHasher.mk0, SipHasher.write, SipHasher.finish,
    List.append_assoc]

theorem clientHash_lt (v : Version) (a : Algorithm) (cip sip : IpAddr)
    (s : List Nat) : (Client.new v a cip sip s).hash < M64 := by
  rw [clientNew_stream]
  exact sipHash24_lt _

theorem version_tryFrom_err (b : Nat) (e : Error)
    (h : Version.tryFrom b = .error e) : e = .UnknownVersion b := by
  unfold Version.tryFrom at h
  split at h <;> simp_all

theorem algorithm_tryFrom_err (b : Nat) (e : Error)
    (h : Algorithm.tryFrom b = .error e) :
    e = .UnsupportedAlgorithm "FNV" ∨ e = .UnsupportedAlgorithm "HMAC-SHA-256-64" ∨
      e = .UnsupportedAlgorithm "AES" ∨ e = .UnknownAlgorithm b := by
  unfold Algorithm.tryFrom at h
  split at h
  · simp_all
  · split at h
    · simp_all
    · split at h
      · simp_all
      · split at h <;> simp_all

theorem decodeLoop_ne_range (v : Version) (a : Algorithm) (r : Nat) (t : Int)
    (cc : List Nat) (H : Nat) (ss : List (List Nat)) :
    Server.decodeLoop v a r t cc H ss ≠ .error .TimestampRange := by
  rw [decodeLoop_eq_find]
  cases hf : ss.find? (fun sec => (Server.new v a r t cc sec).hash == H) <;>
    simp

/-! ### Claim theorems -/

/-- Claim C1, counterexample: the tag is NOT the SipHash-2-4 of the stream
with the reserved field and timestamp in big-endian byte order.  With
reserved = 1 (big-endian bytes `[0, 1]`, native little-endian bytes
`[1, 0]`) the two streams differ and so do the hashes. -/
theorem c1_tag_counterexample :
    Data.hash ⟨.One, .SipHash24, 1, 0, [0, 0, 0, 0, 0, 0, 0, 0]⟩ [] ≠
      specServerTagBE ⟨.One, .SipHash24, 1, 0, [0, 0, 0, 0, 0, 0, 0, 0]⟩ [] := by
  decide

/-- Claim C1 (amended): the 64-bit tag is the SipHash-2-4 (zero key) of the
single stream: 8-byte client cookie, version byte, algorithm byte, the
16-bit reserved field in native (little-endian) byte order, the 32-bit
truncated unix-second timestamp in native (little-endian) byte order, then
the secret bytes — the integer fields are fed native-endian
(`Hasher::write_u16`/`write_u32`), not big-endian. -/
theorem c1_tag_stream (d : Data) (secret : List Nat) :
    d.hash secret =
      sipHash24 (d.clientCookie ++ [d.version.asU8] ++ [d.algorithm.asU8] ++
        leBytes2 d.reserved ++ leBytes4 (tsU32 d.time) ++ secret) :=
  dataHash_stream d secret

/-- Claim C2, counterexample: for a construction time not representable in
the 32-bit wire timestamp (here `t = 2^32`, year 2106) the round-trip fails:
decoding at `now = t` (inside the freshness window of the original cookie)
yields `Expired`, and decoding at `now = 0` (inside the freshness window of
the wrapped wire timestamp) yields a cookie that differs from the original. -/
theorem c2_roundtrip_counterexample :
    Server.decode 4294967296 [1, 1, 1, 1, 1, 1, 1, 1]
        ((Server.new .One .SipHash24 0 4294967296 [1, 1, 1, 1, 1, 1, 1, 1]
          [115, 49]).encode) [[115, 49]] = .error .Expired ∧
    Server.decode 0 [1, 1, 1, 1, 1, 1, 1, 1]
        ((Server.new .One .SipHash24 0 4294967296 [1, 1, 1, 1, 1, 1, 1, 1]
          [115, 49]).encode) [[115, 49]] =
      .ok (Server.new .One .SipHash24 0 0 [1, 1, 1, 1, 1, 1, 1, 1] [115, 49]) ∧
    Server.new .One .SipHash24 0 0 [1, 1, 1, 1, 1, 1, 1, 1] [115, 49] ≠
      Server.new .One .SipHash24 0 4294967296 [1, 1, 1, 1, 1, 1, 1, 1]
        [115, 49] := by
  decide

/-- Claim C2 (amended): round-trip holds for every version, algorithm,
16-bit reserved value, time representable in the 32-bit wire timestamp
field (`0 ≤ t < 2^32` unix seconds), client cookie and secret, with `now`
inside the freshness window; and unconditionally for Client cookies. -/
theorem c2_roundtrip :
    (∀ (v : Version) (a : Algorithm) (r : Nat) (t : Int) (cc s : List Nat)
        (now : Int), r < 65536 → 0 ≤ t → t < 4294967296 →
      now - 3600 ≤ t → t ≤ now + 300 →
      Server.decode now cc ((Server.new v a r t cc s).encode) [s] =
        .ok (Server.new v a r t cc s)) ∧
    (∀ (v : Version) (a : Algorithm) (cip sip : IpAddr) (s : List Nat),
      Client.decode v a cip sip ((Client.new v a cip sip s).encode) [s] =
        .ok (Client.new v a cip sip s)) := by
  constructor
  · intro v a r t cc s now hr ht0 ht1 h1 h2
    rw [decode_encode v a r t cc s [s] now hr ht0 ht1]
    rw [if_neg (by omega), if_neg (by omega)]
    simp [List.find?]
  · intro v a cip sip s
    have hb := clientHash_lt v a cip sip s
    simp [Client.decode, Client.encode, Client.decodeLoop, beNat8_recon _ hb]

/-- Witness for C2 at the spec's concrete scenario (secret = "s1",
client cookie `[1,...,1]`, T0 = 2023-01-01T00:00:00Z = 1672531200). -/
theorem c2_roundtrip_witness :
    Server.decode 1672531200 [1, 1, 1, 1, 1, 1, 1, 1]
        ((Server.new .One .SipHash24 0 1672531200 [1, 1, 1, 1, 1, 1, 1, 1]
          [115, 49]).encode) [[115, 49]] =
      .ok (Server.new .One .SipHash24 0 1672531200 [1, 1, 1, 1, 1, 1, 1, 1]
        [115, 49]) ∧
    Client.decode .One .SipHash24 (.v4 [192, 168, 1, 1]) (.v4 [10, 0, 0, 1])
        ((Client.new .One .SipHash24 (.v4 [192, 168, 1, 1]) (.v4 [10, 0, 0, 1])
          [115, 49]).encode) [[115, 49]] =
      .ok (Client.new .One .SipHash24 (.v4 [192, 168, 1, 1])
        (.v4 [10, 0, 0, 1]) [115, 49]) :=
  ⟨c2_roundtrip.1 .One .SipHash24 0 1672531200 [1, 1, 1, 1, 1, 1, 1, 1]
      [115, 49] 1672531200 (by decide) (by decide) (by decide) (by decide)
      (by decide),
   c2_roundtrip.2 .One .SipHash24 (.v4 [192, 168, 1, 1]) (.v4 [10, 0, 0, 1])
      [115, 49]⟩

/-- Claim C3: freshness of `Server::decode` — a decoded timestamp strictly
below `now - 1h` yields `Expired`, strictly above `now + 5m` yields
`TimeTravellor`, and everything in the closed interval (both boundary
values included) passes the check and decodes successfully with the right
secret. -/
theorem c3_freshness (r : Nat) (t : Int) (cc s : List Nat) (now : Int)
    (hr : r < 65536) (ht0 : 0 ≤ t) (ht1 : t < 4294967296) :
    (t < now - 3600 →
      Server.decode now cc ((Server.new .One .SipHash24 r t cc s).encode)
        [s] = .error .Expired) ∧
    (now + 300 < t →
      Server.decode now cc ((Server.new .One .SipHash24 r t cc s).encode)
        [s] = .error .TimeTravellor) ∧
    (now - 3600 ≤ t → t ≤ now + 300 →
      Server.decode now cc ((Server.new .One .SipHash24 r t cc s).encode)
        [s] = .ok (Server.new .One .SipHash24 r t cc s)) := by
  refine ⟨?_, ?_, ?_⟩
  · intro h
    rw [decode_encode _ _ _ _ _ _ _ _ hr ht0 ht1, if_pos h]
  · intro h
    rw [decode_encode _ _ _ _ _ _ _ _ hr ht0 ht1, if_neg (by omega),
      if_pos h]
  · intro h1 h2
    rw [decode_encode _ _ _ _ _ _ _ _ hr ht0 ht1, if_neg (by omega),
      if_neg (by omega)]
    simp [List.find?]

/-- Witness for C3 at the spec's four boundary cases around T = 10000:
`now = T+1h+1s` expires, `now = T+1h` succeeds, `now = T-5m-1s` is from the
future, `now = T-5m` succeeds. -/
theorem c3_freshness_witness :
    Server.decode 13601 [2, 2, 2, 2, 2, 2, 2, 2]
        ((Server.new .One .SipHash24 0 10000 [2, 2, 2, 2, 2, 2, 2, 2]
          [7]).encode) [[7]] = .error .Expired ∧
    Server.decode 13600 [2, 2, 2, 2, 2, 2, 2, 2]
        ((Server.new .One .SipHash24 0 10000 [2, 2, 2, 2, 2, 2, 2, 2]
          [7]).encode) [[7]] =
      .ok (Server.new .One .SipHash24 0 10000 [2, 2, 2, 2, 2, 2, 2, 2] [7]) ∧
    Server.decode 9699 [2, 2, 2, 2, 2, 2, 2, 2]
        ((Server.new .One .SipHash24 0 10000 [2, 2, 2, 2, 2, 2, 2, 2]
          [7]).encode) [[7]] = .error .TimeTravellor ∧
    Server.decode 9700 [2, 2, 2, 2, 2, 2, 2, 2]
        ((Server.new .One .SipHash24 0 10000 [2, 2, 2, 2, 2, 2, 2, 2]
          [7]).encode) [[7]] =
      .ok (Server.new .One .SipHash24 0 10000 [2, 2, 2, 2, 2, 2, 2, 2] [7]) :=
  ⟨(c3_freshness 0 10000 [2, 2, 2, 2, 2, 2, 2, 2] [7] 13601 (by decide)
      (by decide) (by decide)).1 (by decide),
   (c3_freshness 0 10000 [2, 2, 2, 2, 2, 2, 2, 2] [7] 13600 (by decide)
      (by decide) (by decide)).2.2 (by decide) (by decide),
   (c3_freshness 0 10000 [2, 2, 2, 2, 2, 2, 2, 2] [7] 9699 (by decide)
      (by decide) (by decide)).2.1 (by decide),
   (c3_freshness 0 10000 [2, 2, 2, 2, 2, 2, 2, 2] [7] 9700 (by decide)
      (by decide) (by decide)).2.2 (by decide) (by decide)⟩

/-- Claim C4: the length guard — any input whose length is not 16 is
rejected as `IncorrectLength(len)` whatever `now`, the client cookie, the
contents and the secrets are, before any other check can produce a
different error. -/
theorem c4_length_guard (now : Int) (cc w : List Nat)
    (ss : List (List Nat)) (h : w.length ≠ 16) :
    Server.decode now cc w ss = .error (.IncorrectLength w.length) := by
  simp [Server.decode, h]

/-- Witness for C4 on a 1-byte input whose sole byte is an otherwise
invalid version byte (showing the length error wins). -/
theorem c4_length_guard_witness :
    Server.decode 0 [] [99] [] = .error (.IncorrectLength 1) :=
  c4_length_guard 0 [] [99] [] (by decide)

/-- Claim C5: secret rotation — once parsing and freshness pass, the
candidate secrets are tried in the given order and the first one whose
recomputed tag equals the wire tag wins; no match (in particular the empty
list) gives `InvalidHash`.  The concrete part instantiates the spec's
scenario: a cookie signed with S1 = "s1" decodes with `[S2, S1]` and
`[S1, S2]`, and fails with `InvalidHash` with `[S2]` only and with `[]`. -/
theorem c5_secret_rotation :
    (∀ (r : Nat) (t : Int) (cc s1 : List Nat) (now : Int)
        (ss : List (List Nat)), r < 65536 → 0 ≤ t → t < 4294967296 →
      now - 3600 ≤ t → t ≤ now + 300 →
      Server.decode now cc ((Server.new .One .SipHash24 r t cc s1).encode)
          ss =
        match ss.find? (fun sec =>
            (Server.new .One .SipHash24 r t cc sec).hash ==
              (Server.new .One .SipHash24 r t cc s1).hash) with
        | some sec => .ok (Server.new .One .SipHash24 r t cc sec)
        | none => .error .InvalidHash) ∧
    (Server.decode 1672531200 [1, 1, 1, 1, 1, 1, 1, 1]
        ((Server.new .One .SipHash24 0 1672531200 [1, 1, 1, 1, 1, 1, 1, 1]
          [115, 49]).encode) [[115, 50], [115, 49]] =
      .ok (Server.new .One .SipHash24 0 1672531200 [1, 1, 1, 1, 1, 1, 1, 1]
        [115, 49]) ∧
     Server.decode 1672531200 [1, 1, 1, 1, 1, 1, 1, 1]
        ((Server.new .One .SipHash24 0 1672531200 [1, 1, 1, 1, 1, 1, 1, 1]
          [115, 49]).encode) [[115, 49], [115, 50]] =
      .ok (Server.new .One .SipHash24 0 1672531200 [1, 1, 1, 1, 1, 1, 1, 1]
        [115, 49]) ∧
     Server.decode 1672531200 [1, 1, 1, 1, 1, 1, 1, 1]
        ((Server.new .One .SipHash24 0 1672531200 [1, 1, 1, 1, 1, 1, 1, 1]
          [115, 49]).encode) [[115, 50]] = .error .InvalidHash ∧
     Server.decode 1672531200 [1, 1, 1, 1, 1, 1, 1, 1]
        ((Server.new .One .SipHash24 0 1672531200 [1, 1, 1, 1, 1, 1, 1, 1]
          [115, 49]).encode) [] = .error .InvalidHash) := by
  constructor
  · intro r t cc s1 now ss hr ht0 ht1 h1 h2
    rw [decode_encode _ _ _ _ _ _ _ _ hr ht0 ht1, if_neg (by omega),
      if_neg (by omega)]
  · decide

/-- Witness for C5: the general rotation characterization applied at the
concrete scenario with candidate list `[S2, S1]`. -/
theorem c5_secret_rotation_witness :
    Server.decode 1672531200 [1, 1, 1, 1, 1, 1, 1, 1]
        ((Server.new .One .SipHash24 0 1672531200 [1, 1, 1, 1, 1, 1, 1, 1]
          [115, 49]).encode) [[115, 50], [115, 49]] =
      match [[115, 50], [115, 49]].find? (fun sec =>
          (Server.new .One .SipHash24 0 1672531200 [1, 1, 1, 1, 1, 1, 1, 1]
            sec).hash ==
            (Server.new .One .SipHash24 0 1672531200 [1, 1, 1, 1, 1, 1, 1, 1]
              [115, 49]).hash) with
      | some sec =>
        .ok (Server.new .One .SipHash24 0 1672531200 [1, 1, 1, 1, 1, 1, 1, 1]
          sec)
      | none => .error .InvalidHash :=
  c5_secret_rotation.1 0 1672531200 [1, 1, 1, 1, 1, 1, 1, 1] [115, 49]
    1672531200 [[115, 50], [115, 49]] (by decide) (by decide) (by decide)
    (by decide) (by decide)

/-- Claim C6, counterexample: regenerating at `t = 2^32` (not within 30
minutes of the stored timestamp 0) does set the timestamp to `t` and
recompute the tag, but the resulting encoding does NOT decode successfully
at `t`: the wire timestamp wraps to 0 and decoding yields `Expired`. -/
theorem c6_regenerate_counterexample :
    ((Server.new .One .SipHash24 0 0 [1, 1, 1, 1, 1, 1, 1, 1]
        [115, 49]).regenerate 4294967296 [115, 49]).data.time =
      4294967296 ∧
    Server.decode 4294967296 [1, 1, 1, 1, 1, 1, 1, 1]
        (((Server.new .One .SipHash24 0 0 [1, 1, 1, 1, 1, 1, 1, 1]
          [115, 49]).regenerate 4294967296 [115, 49]).encode) [[115, 49]] =
      .error .Expired := by
  decide

/-- Claim C6 (amended): if the stored timestamp is strictly newer than
`t - 30min` the cookie is returned unchanged with byte-identical encoding;
otherwise the result has timestamp `t`, a tag recomputed with the given
secret, all other fields unchanged (it equals `new` on the old fields with
time `t`), and — provided `t` is representable in the 32-bit wire field
(`0 ≤ t < 2^32`) — its encoding decodes successfully at `t`. -/
theorem c6_regenerate (s : Server) (t : Int) (secret : List Nat) :
    (t - 1800 < s.data.time →
      s.regenerate t secret = s ∧
      (s.regenerate t secret).encode = s.encode) ∧
    (s.data.time ≤ t - 1800 →
      s.regenerate t secret =
        Server.new s.data.version s.data.algorithm s.data.reserved t
          s.data.clientCookie secret ∧
      (s.data.reserved < 65536 → 0 ≤ t → t < 4294967296 →
        Server.decode t s.data.clientCookie
            ((s.regenerate t secret).encode) [secret] =
          .ok (s.regenerate t secret))) := by
  obtain ⟨⟨v0, a0, r0, t0, cc0⟩, h0⟩ := s
  constructor
  · intro h
    have heq : Server.regenerate ⟨⟨v0, a0, r0, t0, cc0⟩, h0⟩ t secret =
        ⟨⟨v0, a0, r0, t0, cc0⟩, h0⟩ := by
      simp only [Server.regenerate]
      rw [if_pos h]
    exact ⟨heq, by rw [heq]⟩
  · intro h
    have hne : ¬(t - 1800 < (⟨⟨v0, a0, r0, t0, cc0⟩, h0⟩ : Server).data.time) :=
      not_lt.mpr h
    have hreg : Server.regenerate ⟨⟨v0, a0, r0, t0, cc0⟩, h0⟩ t secret =
        Server.new v0 a0 r0 t cc0 secret := by
      simp only [Server.regenerate]
      rw [if_neg hne]
      rfl
    refine ⟨hreg, ?_⟩
    intro hr ht0 ht1
    rw [hreg, decode_encode _ _ _ _ _ _ _ _ hr ht0 ht1,
      if_neg (by omega), if_neg (by omega)]
    simp [List.find?]

/-- Witness for C6: both branches at concrete inputs — a 10-minute-old
cookie is returned unchanged, a cookie restamped after an hour equals `new`
at the new time and decodes successfully there. -/
theorem c6_regenerate_witness :
    (Server.new .One .SipHash24 0 1000000 [3, 3, 3, 3, 3, 3, 3, 3]
        [115, 49]).regenerate 1000600 [115, 49] =
      Server.new .One .SipHash24 0 1000000 [3, 3, 3, 3, 3, 3, 3, 3]
        [115, 49] ∧
    (Server.new .One .SipHash24 0 1000000 [3, 3, 3, 3, 3, 3, 3, 3]
        [115, 49]).regenerate 1003600 [115, 50] =
      Server.new .One .SipHash24 0 1003600 [3, 3, 3, 3, 3, 3, 3, 3]
        [115, 50] ∧
    Server.decode 1003600 [3, 3, 3, 3, 3, 3, 3, 3]
        (((Server.new .One .SipHash24 0 1000000 [3, 3, 3, 3, 3, 3, 3, 3]
          [115, 49]).regenerate 1003600 [115, 50]).encode) [[115, 50]] =
      .ok ((Server.new .One .SipHash24 0 1000000 [3, 3, 3, 3, 3, 3, 3, 3]
        [115, 49]).regenerate 1003600 [115, 50]) :=
  ⟨((c6_regenerate (Server.new .One .SipHash24 0 1000000
      [3, 3, 3, 3, 3, 3, 3, 3] [115, 49]) 1000600 [115, 49]).1
      (by decide)).1,
   ((c6_regenerate (Server.new .One .SipHash24 0 1000000
      [3, 3, 3, 3, 3, 3, 3, 3] [115, 49]) 1003600 [115, 50]).2
      (by decide)).1,
   ((c6_regenerate (Server.new .One .SipHash24 0 1000000
      [3, 3, 3, 3, 3, 3, 3, 3] [115, 49]) 1003600 [115, 50]).2
      (by decide)).2 (by decide) (by decide) (by decide)⟩

/-- Claim C7: algorithm byte parsing — 1, 2, 3 yield `UnsupportedAlgorithm`
with names "FNV", "HMAC-SHA-256-64", "AES", 4 yields `SipHash24`, every
other byte yields `UnknownAlgorithm(b)`; version byte 1 yields `V1` and
every other byte `UnknownVersion(b)`. -/
theorem c7_parse :
    Algorithm.tryFrom 1 = .error (.UnsupportedAlgorithm "FNV") ∧
    Algorithm.tryFrom 2 = .error (.UnsupportedAlgorithm "HMAC-SHA-256-64") ∧
    Algorithm.tryFrom 3 = .error (.UnsupportedAlgorithm "AES") ∧
    Algorithm.tryFrom 4 = .ok .SipHash24 ∧
    (∀ b : Nat, b < 256 → b ≠ 1 → b ≠ 2 → b ≠ 3 → b ≠ 4 →
      Algorithm.tryFrom b = .error (.UnknownAlgorithm b)) ∧
    Version.tryFrom 1 = .ok .One ∧
    (∀ b : Nat, b < 256 → b ≠ 1 →
      Version.tryFrom b = .error (.UnknownVersion b)) := by
  refine ⟨by decide, by decide, by decide, by decide, ?_, by decide, ?_⟩
  · intro b hb h1 h2 h3 h4
    simp [Algorithm.tryFrom, Algorithm.asU8, h1, h2, h3, h4]
  · intro b hb h1
    simp [Version.tryFrom, Version.asU8, h1]

/-- Witness for C7 at bytes 7 (algorithm) and 9 (version). -/
theorem c7_parse_witness :
    Algorithm.tryFrom 7 = .error (.UnknownAlgorithm 7) ∧
    Version.tryFrom 9 = .error (.UnknownVersion 9) :=
  ⟨c7_parse.2.2.2.2.1 7 (by decide) (by decide) (by decide) (by decide)
      (by decide),
   c7_parse.2.2.2.2.2.2 9 (by decide) (by decide)⟩

/-- Claim C8: wire layout — a Server cookie encodes to exactly 16 bytes:
version byte, algorithm byte, reserved as 2 big-endian bytes, the 32-bit
truncated unix timestamp as 4 big-endian bytes, the 64-bit tag as 8
big-endian bytes (stated by decoding each slice back); a Client cookie
encodes to the 8-byte big-endian tag. -/
theorem c8_encode_layout :
    (∀ (v : Version) (a : Algorithm) (r : Nat) (t : Int) (cc : List Nat)
        (h : Nat), r < 65536 → h < M64 →
      (Server.encode ⟨⟨v, a, r, t, cc⟩, h⟩).length = 16 ∧
      (Server.encode ⟨⟨v, a, r, t, cc⟩, h⟩).take 2 = [v.asU8, a.asU8] ∧
      beNat (((Server.encode ⟨⟨v, a, r, t, cc⟩, h⟩).drop 2).take 2) = r ∧
      beNat (((Server.encode ⟨⟨v, a, r, t, cc⟩, h⟩).drop 4).take 4) =
        tsU32 t ∧
      beNat ((Server.encode ⟨⟨v, a, r, t, cc⟩, h⟩).drop 8) = h) ∧
    (∀ c : Client, c.hash < M64 →
      (Client.encode c).length = 8 ∧ beNat (Client.encode c) = c.hash) := by
  constructor
  · intro v a r t cc h hr hh
    refine ⟨by simp [Server.encode], by simp [Server.encode], ?_, ?_, ?_⟩
    · simp only [Server.encode, List.drop, List.take]
      exact beNat2_recon r hr
    · simp only [Server.encode, List.drop, List.take]
      exact beNat4_recon (tsU32 t) (tsU32_lt t)
    · simp only [Server.encode, List.drop]
      exact beNat8_recon h hh
  · intro c hc
    refine ⟨by simp [Client.encode], ?_⟩
    simp only [Client.encode]
    exact beNat8_recon c.hash hc

/-- Witness for C8 at reserved = 258, timestamp 5, tag 77. -/
theorem c8_encode_layout_witness :
    (Server.encode ⟨⟨.One, .SipHash24, 258, 5, []⟩, 77⟩).length = 16 ∧
    (Server.encode ⟨⟨.One, .SipHash24, 258, 5, []⟩, 77⟩).take 2 = [1, 4] ∧
    beNat (((Server.encode ⟨⟨.One, .SipHash24, 258, 5, []⟩, 77⟩).drop 2).take
      2) = 258 ∧
    beNat (((Server.encode ⟨⟨.One, .SipHash24, 258, 5, []⟩, 77⟩).drop 4).take
      4) = tsU32 5 ∧
    beNat ((Server.encode ⟨⟨.One, .SipHash24, 258, 5, []⟩, 77⟩).drop 8) =
      77 ∧
    (Client.encode ⟨77⟩).length = 8 ∧ beNat (Client.encode ⟨77⟩) = 77 := by
  have h1 := c8_encode_layout.1 .One .SipHash24 258 5 [] 77 (by decide)
    (by decide)
  have h2 := c8_encode_layout.2 ⟨77⟩ (by decide)
  exact ⟨h1.1, h1.2.1, h1.2.2.1, h1.2.2.2.1, h1.2.2.2.2, h2.1, h2.2⟩

/-- Claim C9: the Client tag is the keyed hash of exactly the client IP
octets, then the server IP octets, then the secret (no version, algorithm,
reserved or timestamp fields in the stream), and `Client::decode` is fully
characterized by tag comparison over the candidate secrets — it takes no
time argument and performs no freshness check, so its outcome is
independent of time. -/
theorem c9_client_tag :
    (∀ (v : Version) (a : Algorithm) (cip sip : IpAddr) (s : List Nat),
      (Client.new v a cip sip s).hash =
        sipHash24 (cip.octets ++ sip.octets ++ s)) ∧
    (∀ (v : Version) (a : Algorithm) (cip sip : IpAddr) (w : List Nat)
        (ss : List (List Nat)),
      Client.decode v a cip sip w ss =
        match ss.find? (fun sec =>
            (Client.new v a cip sip sec).hash == beNat w) with
        | some sec => .ok (Client.new v a cip sip sec)
        | none => .error .InvalidHash) := by
  refine ⟨clientNew_stream, ?_⟩
  intro v a cip sip w ss
  unfold Client.decode
  exact clientLoop_eq_find v a cip sip (beNat w) ss

/-- Claim C10: for every 16-byte input (timestamp bytes being bytes, below
256) the timestamp parse never fails: every 32-bit wire timestamp is a
representable calendar time, so `Server::decode` never returns
`TimestampRange`. -/
theorem c10_no_timestamp_range (now : Int) (cc : List Nat)
    (b0 b1 b2 b3 b4 b5 b6 b7 b8 b9 b10 b11 b12 b13 b14 b15 : Nat)
    (ss : List (List Nat)) (h4 : b4 < 256) (h5 : b5 < 256) (h6 : b6 < 256)
    (h7 : b7 < 256) :
    Server.decode now cc
        [b0, b1, b2, b3, b4, b5, b6, b7, b8, b9, b10, b11, b12, b13, b14,
          b15] ss ≠
      .error .TimestampRange := by
  have hts : beNat [b4, b5, b6, b7] < 4294967296 := by
    simp only [beNat, List.foldl]
    omega
  have hfrom : fromUnixTimestamp ((beNat [b4, b5, b6, b7] : Nat) : Int) =
      some ((beNat [b4, b5, b6, b7] : Nat) : Int) := by
    unfold fromUnixTimestamp minUnixTimestamp maxUnixTimestamp
    rw [if_pos (by constructor <;> omega)]
  simp only [Server.decode, List.length_cons, List.length_nil]
  norm_num
  cases hv : Version.tryFrom b0 with
  | error e =>
    have := version_tryFrom_err b0 e hv
    subst this
    simp
  | ok version =>
    cases ha : Algorithm.tryFrom b1 with
    | error e =>
      rcases algorithm_tryFrom_err b1 e ha with h | h | h | h <;> subst h <;>
        simp
    | ok algorithm =>
      simp only [hfrom]
      intro hbad
      split at hbad
      · simp at hbad
      · split at hbad
        · simp at hbad
        · exact decodeLoop_ne_range _ _ _ _ _ _ _ hbad

/-- Witness for C10 on the all-zero 16-byte input. -/
theorem c10_no_timestamp_range_witness :
    Server.decode 0 [] [0, 0, 0, 0, 0, 0, 0, 0, 0, 0, 0, 0, 0, 0, 0, 0]
        [] ≠ .error .TimestampRange :=
  c10_no_timestamp_range 0 [] 0 0 0 0 0 0 0 0 0 0 0 0 0 0 0 0 []
    (by decide) (by decide) (by decide) (by decide)

end DnsCookie
